import Mathlib

/-!
Verification of the asset-inlining engine of `combinehtml` (src/app.py).

The program has two pipelines sharing a document-tree data model:
* the bundle pipeline `combine_html_from_zip`, which picks the first
  `.html` file of an extracted archive tree, parses it, and appends a
  `<style>` block to the document head for every `.css` file of the tree
  and a `<script>` block to the body for every `.js` file;
* the remote pipeline `fetch_and_combine_url` / `fetch_and_inline`, which
  fetches a document from a URL, collects its stylesheet links and external
  scripts, fetches each one and (as written) tries to replace the reference
  node with an inline node.

HTML parsing and serialization are external capabilities of the program
(BeautifulSoup); they enter the embedding as function parameters `parse`
and `serialize`.  The extracted archive is embedded as the ordered list of
(path, read result) pairs in directory-traversal (`os.walk`) order; a read
result of `none` embeds a file whose `open`/`read` raises (unreadable or
undecodable bytes).
-/

namespace CombineHtml

/-- A document-tree node, the embedding of a BeautifulSoup tag or string:
an element carries its tag name, attribute list and children; a text node
carries its string. -/
inductive Node where
  | elem (tag : String) (attrs : List (String × String)) (children : List Node)
  | text (s : String)
deriving Repr

/-- A parsed document (`soup`): the list of top-level nodes of the tree. -/
abbrev Doc := List Node

/-- Attribute lookup on an element's attribute list (first binding wins),
the embedding of `tag['name']` / `tag.get('name')`. -/
def getAttr (attrs : List (String × String)) (name : String) : Option String :=
  (attrs.find? (fun a => a.1 = name)).map (·.2)

mutual

/-- `true` iff no element named `name` occurs anywhere in the subtree. -/
def noTag (name : String) : Node → Bool
  | Node.text _ => true
  | Node.elem t _ c => (!(t = name)) && noTagList name c

/-- `true` iff no element named `name` occurs anywhere in the forest. -/
def noTagList (name : String) : List Node → Bool
  | [] => true
  | n :: ns => noTag name n && noTagList name ns

end

mutual

/-- Append `child` as the last child of the first (depth-first) element
named `name` in the subtree; `none` when no such element exists.  This is
the embedding of `soup.head.append(...)` / `soup.body.append(...)`:
BeautifulSoup's `soup.head` is the first tag named `head` in document
order, and when it is absent the attribute is `None` and the `.append`
call raises `AttributeError`. -/
def appendToFirst (name : String) (child : Node) : Node → Option Node
  | Node.text _ => none
  | Node.elem t a c =>
    if t = name then some (Node.elem t a (c ++ [child]))
    else match appendToFirstList name child c with
      | some c2 => some (Node.elem t a c2)
      | none => none

/-- Forest version of `appendToFirst`: the first element (in depth-first,
left-to-right order) named `name` receives the new child. -/
def appendToFirstList (name : String) (child : Node) : List Node → Option (List Node)
  | [] => none
  | n :: ns =>
    match appendToFirst name child n with
    | some n2 => some (n2 :: ns)
    | none =>
      match appendToFirstList name child ns with
      | some ns2 => some (n :: ns2)
      | none => none

end

mutual

/-- Collect, in depth-first document order, the (path, node) pairs of all
elements satisfying `pred`; the path is the list of child indices from the
document root.  Embedding of `soup.find_all(...)`: the returned path plays
the role of the tag object's identity inside the shared tree. -/
def collectNodes (pred : Node → Bool) (at_ : List Nat) : Node → List (List Nat × Node)
  | Node.text _ => []
  | Node.elem t a c =>
    (if pred (Node.elem t a c) then [(at_, Node.elem t a c)] else []) ++
      collectNodesList pred at_ 0 c

/-- Forest version of `collectNodes`; `i` is the index of the first node of
the remaining forest within its parent. -/
def collectNodesList (pred : Node → Bool) (at_ : List Nat) (i : Nat) :
    List Node → List (List Nat × Node)
  | [] => []
  | n :: ns => collectNodes pred (at_ ++ [i]) n ++ collectNodesList pred at_ (i + 1) ns

end

mutual

/-- Replace the node at the given child-index path with `newN` (embedding of
`tag.replace_with(new_tag)`, addressed by the tag's position in the tree). -/
def replaceAt : List Nat → Node → Node → Node
  | [], newN, _ => newN
  | i :: rest, newN, Node.elem t a c => Node.elem t a (replaceAtChildren i rest newN c)
  | _ :: _, _, Node.text s => Node.text s

/-- Helper of `replaceAt`: walk to child index `i` and recurse. -/
def replaceAtChildren : Nat → List Nat → Node → List Node → List Node
  | _, _, _, [] => []
  | 0, rest, newN, n :: ns => replaceAt rest newN n :: ns
  | Nat.succ i, rest, newN, n :: ns => n :: replaceAtChildren i rest newN ns

end

/-- Replace the node at a path in a document (the path's head indexes the
top-level forest). -/
def replaceAtDoc (path : List Nat) (newN : Node) (d : Doc) : Doc :=
  match path with
  | [] => d
  | i :: rest => replaceAtChildren i rest newN d

/-- The Python exceptions the two pipelines can raise, as surfaced to the
route handler `index` (which formats any of them into an error page). -/
inductive PyErr where
  | fileNotFound
  | readFailed
  | attributeError
  | clientError
  | httpStatusError (status : Nat)
deriving Repr, DecidableEq

/-- Outcome of one HTTP GET (`session.get` + body read): either a response
with its status and decoded body, or an exception (timeout, connection
error, decode failure). -/
inductive FetchOutcome where
  | success (status : Nat) (body : String)
  | netError
deriving Repr, DecidableEq

/-- `style_tag = soup.new_tag('style'); style_tag.string = css_content`:
a style element whose only child is the raw stylesheet text. -/
def styleTag (content : String) : Node :=
  Node.elem "style" [] [Node.text content]

/-- `script_tag = soup.new_tag('script'); script_tag.string = js_content`:
a script element whose only child is the raw script text. -/
def scriptTag (content : String) : Node :=
  Node.elem "script" [] [Node.text content]

/-- One file of the extracted bundle: its path and the result of reading it
as UTF-8 text (`none` embeds a raising `open`/`read`). -/
abbrev BundleFile := String × Option String

/-- The extracted archive: its files in `os.walk` traversal order. -/
abbrev Bundle := List BundleFile

/-- Python's `str.endswith`, on the underlying character lists. -/
def endswith (s suff : String) : Bool :=
  suff.data.isSuffixOf s.data

/-- The `os.walk` loop of src/app.py lines 32-39: the first file whose name
ends in `.html`, in traversal order (the inner and outer `break` make the
loop stop at the first match). -/
def findHtml (b : Bundle) : Option BundleFile :=
  b.find? (fun f => endswith f.1 ".html")

/-- Line 49: `css_files`, every file of the extracted tree whose name ends
in `.css`, in traversal order. -/
def cssAssets (b : Bundle) : List BundleFile :=
  b.filter (fun f => endswith f.1 ".css")

/-- Line 58: `js_files`, every file of the extracted tree whose name ends
in `.js`, in traversal order. -/
def jsAssets (b : Bundle) : List BundleFile :=
  b.filter (fun f => endswith f.1 ".js")

/-- Common shape of the two asset-inlining loops of the bundle pipeline:
for each discovered file, read it (a failing read raises out of the whole
pipeline, there is no per-asset recovery here) and append a new tag holding
its content to the first element named `containerTag` (`soup.head` /
`soup.body`); when that element is absent the attribute is `None` and the
`.append` call raises `AttributeError`. -/
def inlineAssets (containerTag : String) (mkTag : String → Node) :
    List BundleFile → Doc → Except PyErr Doc
  | [], soup => Except.ok soup
  | f :: rest, soup =>
    match f.2 with
    | none => Except.error PyErr.readFailed
    | some content =>
      match appendToFirstList containerTag (mkTag content) soup with
      | none => Except.error PyErr.attributeError
      | some soup2 => inlineAssets containerTag mkTag rest soup2

/-- Lines 50-55: the css loop reads each css file and appends a style tag
with its content to `soup.head`. -/
def inlineCss (assets : List BundleFile) (soup : Doc) : Except PyErr Doc :=
  inlineAssets "head" styleTag assets soup

/-- Lines 59-64: the js loop reads each js file and appends a script tag
with its content to `soup.body`. -/
def inlineJs (assets : List BundleFile) (soup : Doc) : Except PyErr Doc :=
  inlineAssets "body" scriptTag assets soup

/-- The bundle pipeline `combine_html_from_zip` (lines 24-72), after archive
extraction: select the first `.html` file (`FileNotFoundError` when none),
read and parse it, append a style block to the head per `.css` file of the
tree and a script block to the body per `.js` file, serialize the result.
The returned string is the content of the produced artifact file. -/
def combine_html_from_zip (parse : String → Doc) (serialize : Doc → String)
    (b : Bundle) : Except PyErr String :=
  match findHtml b with
  | none => Except.error PyErr.fileNotFound
  | some f =>
    match f.2 with
    | none => Except.error PyErr.readFailed
    | some htmlContent =>
      match inlineCss (cssAssets b) (parse htmlContent) with
      | Except.error e => Except.error e
      | Except.ok soup2 =>
        match inlineJs (jsAssets b) soup2 with
        | Except.error e => Except.error e
        | Except.ok soup3 => Except.ok (serialize soup3)

/-- Resolution of the free name `soup` inside `fetch_and_inline` (line 80,
`new_tag = soup.new_tag(tag_name)`).  `fetch_and_inline` is a module-level
function, so Python resolves `soup` in the module's global namespace; the
module's top level (src/app.py) binds only the imports, `app` (line 12),
`UPLOAD_FOLDER` (line 18), `HTTP_TIMEOUT` (line 22) and the functions
`combine_html_from_zip`, `fetch_and_inline`, `fetch_and_combine_url` and
`index` — it never assigns `soup` (the `soup` of `fetch_and_combine_url`,
line 94, is local to that function).  The lookup therefore raises
`NameError`, embedded here as `none`. -/
def moduleGlobalSoup : Option Unit := none

/-- `fetch_and_inline(session, url, tag, attr, tag_name)` (lines 74-87).
The whole body is a `try` block whose `except Exception` swallows every
exception, leaving the document untouched.  On a 200 response it evaluates
`soup.new_tag(tag_name)` — `soup` resolving to `moduleGlobalSoup` — then
would set the fetched body as the new tag's string and replace the target
tag with it in the shared tree.  `fetch` embeds `session.get` plus body
decoding; `tagPath` is the identity of `tag` in the caller's tree; `attr`
is accepted and unused, as in the source. -/
def fetch_and_inline (fetch : String → FetchOutcome) (url : String)
    (tagPath : List Nat) (attr : String) (tagName : String) (soup : Doc) : Doc :=
  match fetch url with
  | FetchOutcome.netError => soup
  | FetchOutcome.success status body =>
    if status = 200 then
      match moduleGlobalSoup with
      | some _ => replaceAtDoc tagPath (Node.elem tagName [] [Node.text body]) soup
      | none => soup
    else soup

/-- Split a character list into maximal runs of non-whitespace characters;
`acc` is the current run, reversed. -/
def splitWsAux : List Char → List Char → List String
  | [], acc => if acc.isEmpty then [] else [String.mk acc.reverse]
  | c :: cs, acc =>
    if c = ' ' ∨ c = '\t' ∨ c = '\n' ∨ c = '\r' then
      if acc.isEmpty then splitWsAux cs []
      else String.mk acc.reverse :: splitWsAux cs []
    else splitWsAux cs (c :: acc)

/-- Whitespace tokenization of an attribute value: how BeautifulSoup turns
the `rel` attribute of a tag into its list of link types. -/
def splitWs (s : String) : List String :=
  splitWsAux s.data []

/-- An element is a stylesheet link when it is a `link` tag with an `href`
(the `find_all('link', href=True)` query, line 99) whose `rel` attribute's
whitespace-separated token list contains `stylesheet` (line 101;
BeautifulSoup exposes `rel` as a multi-valued attribute, `[]` when
absent). -/
def isStylesheetLink : Node → Bool
  | Node.elem t a _ =>
    t = "link" && (getAttr a "href").isSome &&
      (match getAttr a "rel" with
       | none => ([] : List String)
       | some r => splitWs r).contains "stylesheet"
  | Node.text _ => false

/-- An element is an external script when it is a `script` tag with a `src`
attribute (the `find_all('script', src=True)` query, line 106). -/
def isExtScript : Node → Bool
  | Node.elem t a _ => t = "script" && (getAttr a "src").isSome
  | Node.text _ => false

/-- The reference of one attribute of a found node, with `d` the default
for a missing attribute (the loops read `link['href']` / `script['src']`
right after the presence-filtered `find_all`, so the default is unused). -/
def attrOf (n : Node) (name : String) (d : String) : String :=
  match n with
  | Node.elem _ a _ => (getAttr a name).getD d
  | Node.text _ => d

/-- The task list built by the two loops of `fetch_and_combine_url`
(lines 98-109): first one task per stylesheet link, then one per external
script, each carrying the asset URL already resolved against the document
URL with `urljoin`, the target tag's identity, the (unused) attribute name
and the inline tag name. -/
def remoteTasks (urljoin : String → String → String) (url : String) (soup : Doc) :
    List (String × List Nat × String × String) :=
  (collectNodesList isStylesheetLink [] 0 soup).map
      (fun pn => (urljoin url (attrOf pn.2 "href" ""), pn.1, "href", "style")) ++
    (collectNodesList isExtScript [] 0 soup).map
      (fun pn => (urljoin url (attrOf pn.2 "src" ""), pn.1, "src", "script"))

/-- `await asyncio.gather(*tasks)` (line 111): every task settles before the
pipeline continues, and each task's only effect on the document is its own
`fetch_and_inline` call; the batch is embedded as the fold of those effects
in task order. -/
def runTasks (fetch : String → FetchOutcome)
    (tasks : List (String × List Nat × String × String)) (soup : Doc) : Doc :=
  tasks.foldl (fun d t => fetch_and_inline fetch t.1 t.2.1 t.2.2.1 t.2.2.2 d) soup

/-- The remote pipeline `fetch_and_combine_url(url)` (lines 89-119): fetch
the document (a network error raises out of the pipeline; then
`response.raise_for_status()` raises `ClientResponseError` exactly when the
status is 400 or above — `aiohttp`'s `ok` predicate is `400 > status`),
parse the body, build the asset tasks, run them, serialize.  The returned
string is the content of the produced artifact file. -/
def fetch_and_combine_url (urljoin : String → String → String)
    (fetch : String → FetchOutcome) (parse : String → Doc)
    (serialize : Doc → String) (url : String) : Except PyErr String :=
  match fetch url with
  | FetchOutcome.netError => Except.error PyErr.clientError
  | FetchOutcome.success status body =>
    if 400 ≤ status then Except.error (PyErr.httpStatusError status)
    else
      let soup := parse body
      Except.ok (serialize (runTasks fetch (remoteTasks urljoin url soup) soup))

/-- A response of the route handler: a file download (name and content), a
plain error page carrying the formatted exception, or the upload form. -/
inductive Response where
  | download (name : String) (content : String)
  | errorMessage (e : PyErr)
  | uploadForm
deriving Repr, DecidableEq

/-- The `elif 'url' in request.form and request.form['url']:` branch of
`index` (lines 138-148): with a present, truthy (non-empty) `url` field the
remote pipeline runs, its result sent as `combined_from_url.html` and any
exception rendered as an error page; otherwise the handler falls through to
the upload form. -/
def indexUrlBranch (urlField : Option String) (urljoin : String → String → String)
    (fetch : String → FetchOutcome) (parse : String → Doc)
    (serialize : Doc → String) : Response :=
  match urlField with
  | none => Response.uploadForm
  | some u =>
    if u = "" then Response.uploadForm
    else
      match fetch_and_combine_url urljoin fetch parse serialize u with
      | Except.ok content => Response.download "combined_from_url.html" content
      | Except.error e => Response.errorMessage e

/-- The route handler `index` (lines 121-231).  On POST, a present `file`
upload with a non-empty filename is handled by the bundle pipeline (the
saved archive's extracted tree is `bundle`), any exception rendered as an
error page; otherwise the `url` field is tried; otherwise — and on GET —
the upload form is rendered.  `fileField` is `none` when the request has no
`file` part, `some (filename, bundle)` otherwise. -/
def index (method : String) (fileField : Option (String × Bundle))
    (urlField : Option String) (urljoin : String → String → String)
    (fetch : String → FetchOutcome) (parse : String → Doc)
    (serialize : Doc → String) : Response :=
  if method = "POST" then
    match fileField with
    | some (filename, bundle) =>
      if filename = "" then indexUrlBranch urlField urljoin fetch parse serialize
      else
        match combine_html_from_zip parse serialize bundle with
        | Except.ok content => Response.download "combined_from_zip.html" content
        | Except.error e => Response.errorMessage e
    | none => indexUrlBranch urlField urljoin fetch parse serialize
  else Response.uploadForm

/-- A document with head and body sections in the standard places: a single
`html` root whose children hold a `head` element (attributes `headAt`,
children `hc`) and, after it, a `body` element (attributes `bodyAt`,
children `bc`); `pre`, `mid` and `post` are the sibling nodes around them
(whitespace text, comments, other elements). -/
def stdDoc (hAt : List (String × String)) (pre : List Node)
    (headAt : List (String × String)) (hc : List Node) (mid : List Node)
    (bodyAt : List (String × String)) (bc : List Node) (post : List Node) : Doc :=
  [Node.elem "html" hAt
    (pre ++ Node.elem "head" headAt hc :: (mid ++ Node.elem "body" bodyAt bc :: post))]

/-!  Concrete instances used to exercise the pipelines on closed inputs. -/

/-- A bundle with one html, one css and one js file, all readable. -/
def wBundle : Bundle :=
  [("site/i.html", some "doc"), ("site/a.css", some "c1"), ("site/b.js", some "j1")]

/-- A parser stub producing an empty-head, empty-body standard document. -/
def wParse : String → Doc := fun _ => stdDoc [] [] [] [] [] [] [] []

/-- A serializer stub. -/
def wSerialize : Doc → String := fun _ => "artifact"

/-- A parser stub producing a document with neither head nor body. -/
def headlessParse : String → Doc := fun _ => [Node.elem "p" [] [Node.text "hi"]]

/-- The document of the spec's URL-mode example: a stylesheet link to
`a.css` sitting in the head. -/
def linkedDoc : Doc :=
  [Node.elem "html" []
    [Node.elem "head" [] [Node.elem "link" [("rel", "stylesheet"), ("href", "a.css")] []],
     Node.elem "body" [] []]]

/-- Stub fetch layer for the spec's URL-mode example: the primary URL
returns the page and `a.css` returns 200 with the stylesheet body. -/
def stubFetch : String → FetchOutcome := fun u =>
  if u = "a.css" then FetchOutcome.success 200 "body\x7bcolor:red\x7d"
  else if u = "http://x" then FetchOutcome.success 200 "page"
  else FetchOutcome.netError

/-- URL-resolution stub: keeps the relative reference as the asset key. -/
def stubUrljoin : String → String → String := fun _ rel => rel

/-- Parser stub returning the example document. -/
def stubParse : String → Doc := fun _ => linkedDoc

/-- Serializer stub for the example pipeline runs. -/
def stubSerialize : Doc → String := fun _ => "artifact"

/-- A document with two stylesheet links, `bad.css` and `good.css`. -/
def twoLinkDoc : Doc :=
  [Node.elem "html" []
    [Node.elem "head" []
      [Node.elem "link" [("rel", "stylesheet"), ("href", "bad.css")] [],
       Node.elem "link" [("rel", "stylesheet"), ("href", "good.css")] []],
     Node.elem "body" [] []]]

/-- Stub fetch layer where `bad.css` fails with a connection error and
`good.css` succeeds. -/
def stubFetch2 : String → FetchOutcome := fun u =>
  if u = "good.css" then FetchOutcome.success 200 "p\x7bmargin:0\x7d"
  else if u = "http://y" then FetchOutcome.success 200 "page"
  else FetchOutcome.netError

/-!  Lemmas about the tree operations. -/

mutual

theorem appendToFirst_eq_none_of_noTag (name : String) (child : Node) :
    ∀ n : Node, noTag name n = true → appendToFirst name child n = none
  | Node.text _, _ => rfl
  | Node.elem t a c, h => by
    simp only [noTag, Bool.and_eq_true, Bool.not_eq_true'] at h
    have ht : ¬ t = name := of_decide_eq_false h.1
    simp only [appendToFirst, if_neg ht,
      appendToFirstList_eq_none_of_noTag name child c h.2]

theorem appendToFirstList_eq_none_of_noTag (name : String) (child : Node) :
    ∀ l : List Node, noTagList name l = true → appendToFirstList name child l = none
  | [], _ => rfl
  | n :: ns, h => by
    simp only [noTagList, Bool.and_eq_true] at h
    simp only [appendToFirstList]
    rw [appendToFirst_eq_none_of_noTag name child n h.1,
      appendToFirstList_eq_none_of_noTag name child ns h.2]

end

theorem appendToFirstList_append_of_noTag (name : String) (child : Node)
    (l1 l2 : List Node) (h : noTagList name l1 = true) :
    appendToFirstList name child (l1 ++ l2) =
      (appendToFirstList name child l2).map (fun l => l1 ++ l) := by
  induction l1 with
  | nil =>
    cases h2 : appendToFirstList name child l2 <;> simp [h2]
  | cons n ns ih =>
    simp only [noTagList, Bool.and_eq_true] at h
    have ha := appendToFirst_eq_none_of_noTag name child n h.1
    have hb := ih h.2
    simp only [List.cons_append, appendToFirstList, ha, List.append_eq]
    rw [hb]
    cases h2 : appendToFirstList name child l2 <;> simp [h2]

theorem noTagList_append (name : String) (l1 l2 : List Node) :
    noTagList name (l1 ++ l2) = (noTagList name l1 && noTagList name l2) := by
  induction l1 with
  | nil => simp [noTagList]
  | cons n ns ih => simp [noTagList, ih, Bool.and_assoc]

mutual

theorem noTag_of_appendToFirst (other name : String) (child : Node) :
    ∀ n n2 : Node, appendToFirst name child n = some n2 → noTag other n = true →
      noTag other child = true → noTag other n2 = true
  | Node.text _, _, hap, _, _ => by simp [appendToFirst] at hap
  | Node.elem t a c, n2, hap, hn, hc => by
    simp only [noTag, Bool.and_eq_true, Bool.not_eq_true'] at hn
    by_cases ht : t = name
    · simp only [appendToFirst, if_pos ht, Option.some.injEq] at hap
      subst hap
      simp only [noTag, Bool.and_eq_true, Bool.not_eq_true', hn.1, true_and,
        noTagList_append, hn.2, noTagList, hc, Bool.and_self]
    · simp only [appendToFirst, if_neg ht] at hap
      cases h2 : appendToFirstList name child c with
      | none => rw [h2] at hap; exact absurd hap (by simp)
      | some c2 =>
        rw [h2] at hap
        simp only [Option.some.injEq] at hap
        subst hap
        simp only [noTag, Bool.and_eq_true, Bool.not_eq_true', hn.1, true_and]
        exact noTagList_of_appendToFirstList other name child c c2 h2 hn.2 hc

theorem noTagList_of_appendToFirstList (other name : String) (child : Node) :
    ∀ l l2 : List Node, appendToFirstList name child l = some l2 →
      noTagList other l = true → noTag other child = true → noTagList other l2 = true
  | [], _, hap, _, _ => by simp [appendToFirstList] at hap
  | n :: ns, l2, hap, hn, hc => by
    simp only [noTagList, Bool.and_eq_true] at hn
    simp only [appendToFirstList] at hap
    cases h2 : appendToFirst name child n with
    | some n2 =>
      rw [h2] at hap
      simp only [Option.some.injEq] at hap
      subst hap
      simp only [noTagList, Bool.and_eq_true, hn.2, and_true]
      exact noTag_of_appendToFirst other name child n n2 h2 hn.1 hc
    | none =>
      rw [h2] at hap
      cases h3 : appendToFirstList name child ns with
      | none => rw [h3] at hap; exact absurd hap (by simp)
      | some ns2 =>
        rw [h3] at hap
        simp only [Option.some.injEq] at hap
        subst hap
        simp only [noTagList, Bool.and_eq_true, hn.1, true_and]
        exact noTagList_of_appendToFirstList other name child ns ns2 h3 hn.2 hc

end

theorem appendToFirstList_head_stdDoc (x : Node) (hAt headAt bodyAt : List (String × String))
    (pre hc mid bc post : List Node) (hpre : noTagList "head" pre = true) :
    appendToFirstList "head" x (stdDoc hAt pre headAt hc mid bodyAt bc post) =
      some (stdDoc hAt pre headAt (hc ++ [x]) mid bodyAt bc post) := by
  simp only [stdDoc, appendToFirstList, appendToFirst]
  rw [if_neg (by decide : ¬ ("html" = "head"))]
  rw [appendToFirstList_append_of_noTag "head" x pre _ hpre]
  simp [appendToFirstList, appendToFirst]

theorem appendToFirstList_body_stdDoc (y : Node) (hAt headAt bodyAt : List (String × String))
    (pre hc mid bc post : List Node) (hpre : noTagList "body" pre = true)
    (hhc : noTagList "body" hc = true) (hmid : noTagList "body" mid = true) :
    appendToFirstList "body" y (stdDoc hAt pre headAt hc mid bodyAt bc post) =
      some (stdDoc hAt pre headAt hc mid bodyAt (bc ++ [y]) post) := by
  simp only [stdDoc, appendToFirstList, appendToFirst]
  rw [if_neg (by decide : ¬ ("html" = "body"))]
  rw [appendToFirstList_append_of_noTag "body" y pre _ hpre]
  simp only [appendToFirstList, appendToFirst]
  rw [if_neg (by decide : ¬ ("head" = "body"))]
  rw [appendToFirstList_eq_none_of_noTag "body" y hc hhc]
  rw [appendToFirstList_append_of_noTag "body" y mid _ hmid]
  simp [appendToFirstList, appendToFirst]

theorem noTag_styleTag_body (c : String) : noTag "body" (styleTag c) = true := by
  simp [noTag, noTagList, styleTag]

theorem noTagList_map_styleTag_body (cs : List String) :
    noTagList "body" (cs.map styleTag) = true := by
  induction cs with
  | nil => rfl
  | cons c cs ih => simp [noTagList, ih, noTag_styleTag_body]

theorem inlineAssets_head_stdDoc (hAt headAt bodyAt : List (String × String))
    (pre mid bc post : List Node) (hpre : noTagList "head" pre = true) :
    ∀ (assets : List BundleFile) (contents : List String) (hc : List Node),
      assets.map (fun f => f.2) = contents.map some →
      inlineAssets "head" styleTag assets (stdDoc hAt pre headAt hc mid bodyAt bc post) =
        Except.ok (stdDoc hAt pre headAt (hc ++ contents.map styleTag) mid bodyAt bc post)
  | [], contents, hc, h => by
    cases contents with
    | nil => simp [inlineAssets]
    | cons c cs => simp at h
  | f :: rest, contents, hc, h => by
    cases contents with
    | nil => simp at h
    | cons c cs =>
      simp only [List.map, List.cons.injEq] at h
      simp only [inlineAssets, h.1]
      rw [appendToFirstList_head_stdDoc (styleTag c) hAt headAt bodyAt pre hc mid bc post hpre]
      show inlineAssets "head" styleTag rest
          (stdDoc hAt pre headAt (hc ++ [styleTag c]) mid bodyAt bc post) = _
      rw [inlineAssets_head_stdDoc hAt headAt bodyAt pre mid bc post hpre rest cs
        (hc ++ [styleTag c]) h.2]
      simp [List.append_assoc]

theorem inlineAssets_body_stdDoc (hAt headAt bodyAt : List (String × String))
    (pre hc mid post : List Node) (hpre : noTagList "body" pre = true)
    (hhc : noTagList "body" hc = true) (hmid : noTagList "body" mid = true) :
    ∀ (assets : List BundleFile) (contents : List String) (bc : List Node),
      assets.map (fun f => f.2) = contents.map some →
      inlineAssets "body" scriptTag assets (stdDoc hAt pre headAt hc mid bodyAt bc post) =
        Except.ok (stdDoc hAt pre headAt hc mid bodyAt (bc ++ contents.map scriptTag) post)
  | [], contents, bc, h => by
    cases contents with
    | nil => simp [inlineAssets]
    | cons c cs => simp at h
  | f :: rest, contents, bc, h => by
    cases contents with
    | nil => simp at h
    | cons c cs =>
      simp only [List.map, List.cons.injEq] at h
      simp only [inlineAssets, h.1]
      rw [appendToFirstList_body_stdDoc (scriptTag c) hAt headAt bodyAt pre hc mid bc post
        hpre hhc hmid]
      show inlineAssets "body" scriptTag rest
          (stdDoc hAt pre headAt hc mid bodyAt (bc ++ [scriptTag c]) post) = _
      rw [inlineAssets_body_stdDoc hAt headAt bodyAt pre hc mid post hpre hhc hmid rest cs
        (bc ++ [scriptTag c]) h.2]
      simp [List.append_assoc]

theorem inlineAssets_error_of_mem_none (t : String) (mk : String → Node) (p : String) :
    ∀ (assets : List BundleFile) (soup : Doc), (p, (none : Option String)) ∈ assets →
      ∃ e, inlineAssets t mk assets soup = Except.error e
  | [], _, hmem => absurd hmem (List.not_mem_nil _)
  | f :: rest, soup, hmem => by
    cases h2 : f.2 with
    | none => exact ⟨PyErr.readFailed, by simp [inlineAssets, h2]⟩
    | some c =>
      have hmem2 : (p, (none : Option String)) ∈ rest := by
        rcases List.mem_cons.mp hmem with h | h
        · rw [← h] at h2; simp at h2
        · exact h
      cases h3 : appendToFirstList t (mk c) soup with
      | none => exact ⟨PyErr.attributeError, by simp [inlineAssets, h2, h3]⟩
      | some soup2 =>
        obtain ⟨e, he⟩ := inlineAssets_error_of_mem_none t mk p rest soup2 hmem2
        exact ⟨e, by simp [inlineAssets, h2, h3, he]⟩

theorem inlineAssets_error_of_noTag (t : String) (mk : String → Node)
    (assets : List BundleFile) (soup : Doc) (h : noTagList t soup = true)
    (hne : assets ≠ []) : ∃ e, inlineAssets t mk assets soup = Except.error e := by
  cases assets with
  | nil => exact absurd rfl hne
  | cons f rest =>
    cases h2 : f.2 with
    | none => exact ⟨PyErr.readFailed, by simp [inlineAssets, h2]⟩
    | some c =>
      exact ⟨PyErr.attributeError, by
        simp [inlineAssets, h2, appendToFirstList_eq_none_of_noTag t (mk c) soup h]⟩

theorem inlineAssets_preserves_noTagList (t : String) (mk : String → Node)
    (other : String) (hmk : ∀ c, noTag other (mk c) = true) :
    ∀ (assets : List BundleFile) (soup soup2 : Doc),
      inlineAssets t mk assets soup = Except.ok soup2 →
      noTagList other soup = true → noTagList other soup2 = true
  | [], soup, soup2, hok, hs => by
    simp only [inlineAssets, Except.ok.injEq] at hok
    rw [← hok]; exact hs
  | f :: rest, soup, soup2, hok, hs => by
    cases h2 : f.2 with
    | none => simp [inlineAssets, h2] at hok
    | some c =>
      cases h3 : appendToFirstList t (mk c) soup with
      | none => simp [inlineAssets, h2, h3] at hok
      | some soupMid =>
        simp only [inlineAssets, h2, h3] at hok
        exact inlineAssets_preserves_noTagList t mk other hmk rest soupMid soup2 hok
          (noTagList_of_appendToFirstList other t (mk c) soup soupMid h3 hs (hmk c))

/-!  The claims. -/

/-- C1: the claim states that in the remote pipeline every asset whose
fetch returns status 200 is inlined, the new inline node replacing the
reference node.  The code does not do this: `fetch_and_inline` reads the
unbound module-global `soup` (src/app.py line 80), the resulting
`NameError` is swallowed by its `except` block, and the document is left
unchanged.  This theorem evaluates the code at the spec's own example: the
fetch of `a.css` (resolved against the page URL) returns 200 with the
stylesheet body, the task list holds exactly the one stylesheet task, yet
running the tasks returns the document unchanged — it still has no style
node, still has its link node — and the whole pipeline returns the
serialization of the unchanged document. -/
theorem C1_remote_inlining_never_happens :
    stubFetch (stubUrljoin "http://x" "a.css") =
      FetchOutcome.success 200 "body\x7bcolor:red\x7d" ∧
    remoteTasks stubUrljoin "http://x" linkedDoc = [("a.css", [0, 0, 0], "href", "style")] ∧
    runTasks stubFetch (remoteTasks stubUrljoin "http://x" linkedDoc) linkedDoc = linkedDoc ∧
    noTagList "style" linkedDoc = true ∧
    noTagList "link" linkedDoc = false ∧
    fetch_and_combine_url stubUrljoin stubFetch stubParse stubSerialize "http://x" =
      Except.ok (stubSerialize linkedDoc) :=
  ⟨rfl, rfl, rfl, rfl, rfl, rfl⟩

/-- C2: the claim states that with exactly one failing asset among N the
request still succeeds, the failing asset's reference node is left
untouched, and the other N-1 assets are inlined.  The first two parts hold,
but the last fails for the same reason as C1: this theorem evaluates the
code on a document with two stylesheet links where `bad.css` errors and
`good.css` returns 200, and shows the document comes out unchanged — the
successful asset is not inlined either (no style node anywhere) — while
the request as a whole still succeeds. -/
theorem C2_one_failure_rest_not_inlined :
    stubFetch2 "bad.css" = FetchOutcome.netError ∧
    stubFetch2 "good.css" = FetchOutcome.success 200 "p\x7bmargin:0\x7d" ∧
    runTasks stubFetch2 (remoteTasks stubUrljoin "http://y" twoLinkDoc) twoLinkDoc =
      twoLinkDoc ∧
    noTagList "style" twoLinkDoc = true ∧
    fetch_and_combine_url stubUrljoin stubFetch2 (fun _ => twoLinkDoc) stubSerialize
      "http://y" = Except.ok (stubSerialize twoLinkDoc) :=
  ⟨rfl, rfl, rfl, rfl, rfl⟩

/-- C3: for every bundle whose only css file and only js file are readable
and whose primary html document parses to a document with head and body
sections in the standard places, the bundle pipeline succeeds and produces
the serialization of the document whose head children gained exactly the
one style block carrying the css file's content, appended last, and whose
body children gained exactly the one script block carrying the js file's
content, appended last. -/
theorem C3_bundle_one_css_one_js
    (parse : String → Doc) (serialize : Doc → String) (b : Bundle)
    (htmlPath cssPath jsPath htmlContent cssContent jsContent : String)
    (hAt headAt bodyAt : List (String × String)) (pre hc mid bc post : List Node)
    (hfind : findHtml b = some (htmlPath, some htmlContent))
    (hcss : cssAssets b = [(cssPath, some cssContent)])
    (hjs : jsAssets b = [(jsPath, some jsContent)])
    (hparse : parse htmlContent = stdDoc hAt pre headAt hc mid bodyAt bc post)
    (hpreHead : noTagList "head" pre = true)
    (hpreBody : noTagList "body" pre = true)
    (hhcBody : noTagList "body" hc = true)
    (hmidBody : noTagList "body" mid = true) :
    combine_html_from_zip parse serialize b =
      Except.ok (serialize (stdDoc hAt pre headAt (hc ++ [styleTag cssContent]) mid bodyAt
        (bc ++ [scriptTag jsContent]) post)) := by
  have h1 := inlineAssets_head_stdDoc hAt headAt bodyAt pre mid bc post hpreHead
    [(cssPath, some cssContent)] [cssContent] hc (by simp)
  have h2 := inlineAssets_body_stdDoc hAt headAt bodyAt pre (hc ++ [styleTag cssContent]) mid post
    hpreBody (by simp [noTagList_append, hhcBody, noTagList, noTag_styleTag_body])
    hmidBody [(jsPath, some jsContent)] [jsContent] bc (by simp)
  simp only [List.map] at h1 h2
  simp only [combine_html_from_zip, hfind, hcss, hjs, hparse, inlineCss, inlineJs]
  rw [h1]
  show (match inlineJs [(jsPath, some jsContent)]
      (stdDoc hAt pre headAt (hc ++ [styleTag cssContent]) mid bodyAt bc post) with
    | Except.error e => Except.error e
    | Except.ok soup3 => Except.ok (serialize soup3)) = _
  rw [inlineJs, h2]

/-- Witness for C3 at a concrete bundle with one html, one css, one js. -/
theorem C3_witness :
    findHtml wBundle = some ("site/i.html", some "doc") ∧
    combine_html_from_zip wParse wSerialize wBundle =
      Except.ok (wSerialize
        (stdDoc [] [] [] ([] ++ [styleTag "c1"]) [] [] ([] ++ [scriptTag "j1"]) [])) :=
  ⟨rfl, C3_bundle_one_css_one_js wParse wSerialize wBundle "site/i.html" "site/a.css"
    "site/b.js" "doc" "c1" "j1" [] [] [] [] [] [] [] [] rfl rfl rfl rfl rfl rfl rfl rfl⟩

/-- C4: a bundle with no file ending in `.html` anywhere makes the bundle
pipeline fail with the no-document-found error, and the route handler
returns the error message instead of a file download. -/
theorem C4_no_html_is_fatal (parse : String → Doc) (serialize : Doc → String)
    (b : Bundle) (filename : String) (urlField : Option String)
    (uj : String → String → String) (fetch : String → FetchOutcome)
    (hnone : ∀ f ∈ b, endswith f.1 ".html" = false) (hfn : filename ≠ "") :
    combine_html_from_zip parse serialize b = Except.error PyErr.fileNotFound ∧
    index "POST" (some (filename, b)) urlField uj fetch parse serialize =
      Response.errorMessage PyErr.fileNotFound := by
  have hfind : findHtml b = none := by
    apply List.find?_eq_none.mpr
    intro f hf
    simp [hnone f hf]
  have hcomb : combine_html_from_zip parse serialize b = Except.error PyErr.fileNotFound := by
    simp [combine_html_from_zip, hfind]
  exact ⟨hcomb, by simp [index, hfn, hcomb]⟩

/-- Witness for C4 at a concrete bundle holding a single text file. -/
theorem C4_witness :
    (∀ f ∈ [(("a.txt" : String), some "x")], endswith f.1 ".html" = false) ∧
    index "POST" (some ("up.zip", [("a.txt", some "x")])) none (fun _ r => r)
      (fun _ => FetchOutcome.netError) wParse wSerialize =
      Response.errorMessage PyErr.fileNotFound :=
  ⟨by decide,
    (C4_no_html_is_fatal wParse wSerialize [("a.txt", some "x")] "up.zip" none (fun _ r => r)
      (fun _ => FetchOutcome.netError) (by decide) (by decide)).2⟩

/-- C5: three parts.  The bundle pipeline's output depends only on the
first `.html` file found in traversal order and on the bundle-wide css and
js file lists; the first `.html` file in traversal order is the primary
document regardless of its position among non-html files; and for a
standard-shape primary document, every css file of the tree contributes one
style block to the head and every js file one script block to the body —
whether or not the document references any of them. -/
theorem C5_first_html_and_bundle_wide
    (parse : String → Doc) (serialize : Doc → String) :
    (∀ b1 b2 : Bundle, findHtml b1 = findHtml b2 → cssAssets b1 = cssAssets b2 →
      jsAssets b1 = jsAssets b2 →
      combine_html_from_zip parse serialize b1 = combine_html_from_zip parse serialize b2) ∧
    (∀ (early : Bundle) (f : BundleFile) (late : Bundle),
      (∀ g ∈ early, endswith g.1 ".html" = false) → endswith f.1 ".html" = true →
      findHtml (early ++ f :: late) = some f) ∧
    (∀ (b : Bundle) (htmlPath htmlContent : String) (cssContents jsContents : List String)
      (hAt headAt bodyAt : List (String × String)) (pre hc mid bc post : List Node),
      findHtml b = some (htmlPath, some htmlContent) →
      (cssAssets b).map (fun f => f.2) = cssContents.map some →
      (jsAssets b).map (fun f => f.2) = jsContents.map some →
      parse htmlContent = stdDoc hAt pre headAt hc mid bodyAt bc post →
      noTagList "head" pre = true → noTagList "body" pre = true →
      noTagList "body" hc = true → noTagList "body" mid = true →
      combine_html_from_zip parse serialize b =
        Except.ok (serialize (stdDoc hAt pre headAt (hc ++ cssContents.map styleTag) mid
          bodyAt (bc ++ jsContents.map scriptTag) post))) := by
  refine ⟨?_, ?_, ?_⟩
  · intro b1 b2 hf hcs hjs
    simp only [combine_html_from_zip, hf, hcs, hjs]
  · intro early f late hearly hf
    induction early with
    | nil => simp [findHtml, List.find?, hf]
    | cons g gs ih =>
      have hg : endswith g.1 ".html" = false := hearly g (List.mem_cons_self g gs)
      simp only [findHtml, List.cons_append, List.find?, hg]
      exact ih (fun x hx => hearly x (List.mem_cons_of_mem g hx))
  · intro b htmlPath htmlContent cssContents jsContents hAt headAt bodyAt pre hc mid bc post
      hfind hcss hjs hparse hpreHead hpreBody hhcBody hmidBody
    have h1 := inlineAssets_head_stdDoc hAt headAt bodyAt pre mid bc post hpreHead
      (cssAssets b) cssContents hc hcss
    have h2 := inlineAssets_body_stdDoc hAt headAt bodyAt pre
      (hc ++ cssContents.map styleTag) mid post hpreBody
      (by simp [noTagList_append, hhcBody, noTagList_map_styleTag_body])
      hmidBody (jsAssets b) jsContents bc hjs
    simp only [combine_html_from_zip, hfind, hparse, inlineCss, inlineJs]
    rw [h1]
    show (match inlineJs (jsAssets b)
        (stdDoc hAt pre headAt (hc ++ cssContents.map styleTag) mid bodyAt bc post) with
      | Except.error e => Except.error e
      | Except.ok soup3 => Except.ok (serialize soup3)) = _
    rw [inlineJs, h2]

/-- Witness for C5: the first `.html` file, behind a css file, is picked. -/
theorem C5_witness :
    findHtml [(("x.css" : String), some "s"), ("a.html", some "d"), ("b.html", some "e")] =
      some ("a.html", some "d") :=
  (C5_first_html_and_bundle_wide wParse wSerialize).2.1 [("x.css", some "s")]
    ("a.html", some "d") [("b.html", some "e")] (by decide) (by decide)

/-- C6 counterexample: the claim says any non-2xx status on the primary
fetch is fatal, but `raise_for_status` only raises at status 400 and above;
at a 304 response — a non-2xx status — the pipeline proceeds and the
handler returns a file download, not an error. -/
theorem C6_counterexample :
    (fun _ : String => FetchOutcome.success 304 "") "http://x" =
      FetchOutcome.success 304 "" ∧
    ¬ (200 ≤ 304 ∧ 304 ≤ 299) ∧
    fetch_and_combine_url (fun _ r => r) (fun _ => FetchOutcome.success 304 "")
      (fun _ => ([] : Doc)) (fun _ => "out") "http://x" = Except.ok "out" ∧
    index "POST" none (some "http://x") (fun _ r => r)
      (fun _ => FetchOutcome.success 304 "") (fun _ => ([] : Doc)) (fun _ => "out") =
      Response.download "combined_from_url.html" "out" :=
  ⟨rfl, by decide, rfl, rfl⟩

/-- C6 as amended: a network error, or a response status of 400 or above,
on the initial document fetch is fatal for the whole request — the pipeline
raises, no document is produced, and the route handler answers with a plain
error message instead of a file download. -/
theorem C6_amended_primary_fetch_failure_fatal (uj : String → String → String)
    (fetch : String → FetchOutcome) (parse : String → Doc) (serialize : Doc → String)
    (u : String)
    (hfail : fetch u = FetchOutcome.netError ∨
             ∃ status body, fetch u = FetchOutcome.success status body ∧ 400 ≤ status) :
    (∃ e, fetch_and_combine_url uj fetch parse serialize u = Except.error e) ∧
    (u ≠ "" → ∃ e, index "POST" none (some u) uj fetch parse serialize =
      Response.errorMessage e) := by
  have h : ∃ e, fetch_and_combine_url uj fetch parse serialize u = Except.error e := by
    rcases hfail with h | ⟨st, body, h, hst⟩
    · exact ⟨PyErr.clientError, by simp [fetch_and_combine_url, h]⟩
    · exact ⟨PyErr.httpStatusError st, by simp [fetch_and_combine_url, h, if_pos hst]⟩
  obtain ⟨e, he⟩ := h
  exact ⟨⟨e, he⟩, fun hu => ⟨e, by simp [index, indexUrlBranch, hu, he]⟩⟩

/-- Witness for the amended C6 at a concrete 500 response. -/
theorem C6_witness :
    ∃ e, fetch_and_combine_url (fun _ r => r) (fun _ => FetchOutcome.success 500 "oops")
      wParse wSerialize "http://x" = Except.error e :=
  (C6_amended_primary_fetch_failure_fatal (fun _ r => r)
    (fun _ => FetchOutcome.success 500 "oops") wParse wSerialize "http://x"
    (Or.inr ⟨500, "oops", rfl, by decide⟩)).1

/-- C7: in the bundle pipeline an unreadable (or undecodable) css or js
asset file anywhere in the tree makes the whole request fail: the pipeline
raises some exception and the route handler returns its message instead of
a file download — there is no per-asset recovery in bundle mode. -/
theorem C7_unreadable_asset_fatal (parse : String → Doc) (serialize : Doc → String)
    (b : Bundle) (filename : String) (urlField : Option String)
    (uj : String → String → String) (fetch : String → FetchOutcome)
    (hfn : filename ≠ "")
    (hbad : (∃ p, (p, (none : Option String)) ∈ cssAssets b) ∨
            (∃ p, (p, (none : Option String)) ∈ jsAssets b)) :
    ∃ e, combine_html_from_zip parse serialize b = Except.error e ∧
      index "POST" (some (filename, b)) urlField uj fetch parse serialize =
        Response.errorMessage e := by
  have hcomb : ∃ e, combine_html_from_zip parse serialize b = Except.error e := by
    cases hfind : findHtml b with
    | none => exact ⟨PyErr.fileNotFound, by simp [combine_html_from_zip, hfind]⟩
    | some f =>
      cases hr : f.2 with
      | none => exact ⟨PyErr.readFailed, by simp [combine_html_from_zip, hfind, hr]⟩
      | some htmlContent =>
        rcases hbad with ⟨p, hmem⟩ | ⟨p, hmem⟩
        · obtain ⟨e, he⟩ := inlineAssets_error_of_mem_none "head" styleTag p (cssAssets b)
            (parse htmlContent) hmem
          exact ⟨e, by simp [combine_html_from_zip, hfind, hr, inlineCss, he]⟩
        · cases hcssr : inlineCss (cssAssets b) (parse htmlContent) with
          | error e => exact ⟨e, by simp [combine_html_from_zip, hfind, hr, hcssr]⟩
          | ok soup2 =>
            obtain ⟨e, he⟩ := inlineAssets_error_of_mem_none "body" scriptTag p (jsAssets b)
              soup2 hmem
            exact ⟨e, by simp [combine_html_from_zip, hfind, hr, hcssr, inlineJs, he]⟩
  obtain ⟨e, he⟩ := hcomb
  exact ⟨e, he, by simp [index, hfn, he]⟩

/-- Witness for C7 at a bundle whose css file is unreadable. -/
theorem C7_witness :
    ∃ e, combine_html_from_zip wParse wSerialize
        [("i.html", some "d"), ("bad.css", none)] = Except.error e ∧
      index "POST" (some ("up.zip", [("i.html", some "d"), ("bad.css", none)])) none
        (fun _ r => r) (fun _ => FetchOutcome.netError) wParse wSerialize =
        Response.errorMessage e :=
  C7_unreadable_asset_fatal wParse wSerialize [("i.html", some "d"), ("bad.css", none)]
    "up.zip" none (fun _ r => r) (fun _ => FetchOutcome.netError) (by decide)
    (Or.inl ⟨"bad.css", by decide⟩)

/-- C8: structural determinism — both pipelines are deterministic functions
of their inputs: equal bundles give equal (hence byte-identical) outputs,
and equal fetch stubs with equal URLs give equal outputs. -/
theorem C8_structural_determinism (parse : String → Doc) (serialize : Doc → String)
    (uj : String → String → String) :
    (∀ b1 b2 : Bundle, b1 = b2 →
      combine_html_from_zip parse serialize b1 = combine_html_from_zip parse serialize b2) ∧
    (∀ (fetch1 fetch2 : String → FetchOutcome) (u1 u2 : String), fetch1 = fetch2 → u1 = u2 →
      fetch_and_combine_url uj fetch1 parse serialize u1 =
        fetch_and_combine_url uj fetch2 parse serialize u2) :=
  ⟨fun b1 b2 h => by rw [h], fun f1 f2 u1 u2 hf hu => by rw [hf, hu]⟩

/-- Witness for C8 at the concrete example bundle. -/
theorem C8_witness :
    combine_html_from_zip wParse wSerialize wBundle =
      combine_html_from_zip wParse wSerialize wBundle :=
  (C8_structural_determinism wParse wSerialize (fun _ r => r)).1 wBundle wBundle rfl

/-- C9: when the primary document parses without a head element while the
bundle has at least one css file, or without a body element while it has at
least one js file, the append lands on a nonexistent container and the
request fails fatally — the pipeline raises and the handler returns an
error message — rather than producing an output document. -/
theorem C9_missing_container_fatal (parse : String → Doc) (serialize : Doc → String)
    (b : Bundle) (htmlPath htmlContent filename : String) (urlField : Option String)
    (uj : String → String → String) (fetch : String → FetchOutcome)
    (hfn : filename ≠ "")
    (hfind : findHtml b = some (htmlPath, some htmlContent))
    (hbad : (noTagList "head" (parse htmlContent) = true ∧ cssAssets b ≠ []) ∨
            (noTagList "body" (parse htmlContent) = true ∧ jsAssets b ≠ [])) :
    ∃ e, combine_html_from_zip parse serialize b = Except.error e ∧
      index "POST" (some (filename, b)) urlField uj fetch parse serialize =
        Response.errorMessage e := by
  have hcomb : ∃ e, combine_html_from_zip parse serialize b = Except.error e := by
    rcases hbad with ⟨hnh, hne⟩ | ⟨hnb, hne⟩
    · obtain ⟨e, he⟩ := inlineAssets_error_of_noTag "head" styleTag (cssAssets b)
        (parse htmlContent) hnh hne
      exact ⟨e, by simp [combine_html_from_zip, hfind, inlineCss, he]⟩
    · cases hcssr : inlineCss (cssAssets b) (parse htmlContent) with
      | error e => exact ⟨e, by simp [combine_html_from_zip, hfind, hcssr]⟩
      | ok soup2 =>
        have hnb2 : noTagList "body" soup2 = true :=
          inlineAssets_preserves_noTagList "head" styleTag "body" noTag_styleTag_body
            (cssAssets b) (parse htmlContent) soup2 hcssr hnb
        obtain ⟨e, he⟩ := inlineAssets_error_of_noTag "body" scriptTag (jsAssets b) soup2
          hnb2 hne
        exact ⟨e, by simp [combine_html_from_zip, hfind, hcssr, inlineJs, he]⟩
  obtain ⟨e, he⟩ := hcomb
  exact ⟨e, he, by simp [index, hfn, he]⟩

/-- Witness for C9 at a headless document with one css file. -/
theorem C9_witness :
    ∃ e, combine_html_from_zip headlessParse wSerialize
        [("i.html", some "d"), ("a.css", some "c")] = Except.error e ∧
      index "POST" (some ("up.zip", [("i.html", some "d"), ("a.css", some "c")])) none
        (fun _ r => r) (fun _ => FetchOutcome.netError) headlessParse wSerialize =
        Response.errorMessage e :=
  C9_missing_container_fatal headlessParse wSerialize
    [("i.html", some "d"), ("a.css", some "c")] "i.html" "d" "up.zip" none
    (fun _ r => r) (fun _ => FetchOutcome.netError) (by decide) (by decide)
    (Or.inl ⟨by decide, by decide⟩)

/-- C10: at the route handler, a present file upload with a non-empty
filename is handled by the bundle pipeline whatever the url field holds (no
part of the response depends on it), and the URL pipeline handles the
request exactly when no such file part is present (absent, or present with
an empty filename) and the url field is non-empty. -/
theorem C10_file_field_precedence (parse : String → Doc) (serialize : Doc → String)
    (uj : String → String → String) (fetch : String → FetchOutcome) :
    (∀ (filename : String) (b : Bundle) (urlField : Option String), filename ≠ "" →
      index "POST" (some (filename, b)) urlField uj fetch parse serialize =
        (match combine_html_from_zip parse serialize b with
         | Except.ok content => Response.download "combined_from_zip.html" content
         | Except.error e => Response.errorMessage e)) ∧
    (∀ (fileField : Option (String × Bundle)) (u : String),
      (fileField = none ∨ ∃ b, fileField = some ("", b)) → u ≠ "" →
      index "POST" fileField (some u) uj fetch parse serialize =
        (match fetch_and_combine_url uj fetch parse serialize u with
         | Except.ok content => Response.download "combined_from_url.html" content
         | Except.error e => Response.errorMessage e)) := by
  constructor
  · intro fn b urlField hfn
    simp [index, hfn]
  · rintro fileField u (rfl | ⟨b, rfl⟩) hu <;> simp [index, indexUrlBranch, hu]

/-- Witness for C10: with both a file and a url present, the zip branch
answers. -/
theorem C10_witness :
    index "POST" (some ("up.zip", wBundle)) (some "http://x") (fun _ r => r)
      (fun _ => FetchOutcome.netError) wParse wSerialize =
      (match combine_html_from_zip wParse wSerialize wBundle with
       | Except.ok content => Response.download "combined_from_zip.html" content
       | Except.error e => Response.errorMessage e) :=
  (C10_file_field_precedence wParse wSerialize (fun _ r => r)
    (fun _ => FetchOutcome.netError)).1 "up.zip" wBundle (some "http://x") (by decide)

end CombineHtml
